import Mathlib

/-!
# Verification of the belabot remote-control session core

Shallow embedding of the belabot repository (a Rust chat bot remote-controlling
a BELABOX streaming encoder over a cloud relay) together with proofs about the
embedded definitions.  Every definition is translated from the source files
under `src/`, with the file and line range of its origin recorded in its doc
comment.  The source snapshot mixes two revisions of the crate; where a
definition needed by one file is absent from the snapshot (noted in place), the
missing part is modelled from the specification document and marked as such.
-/

namespace Belabot

/-! ## Error taxonomy (src/src/belabox.rs lines 31-45, `enum BelaboxError`) -/

/-- Enum `BelaboxError` from src/src/belabox.rs lines 31-45. -/
inductive BelaboxError where
  | connect
  | sendErr
  | disconnected
  | authFailed
  | receiverClosed
  | alreadyRestarting
  deriving DecidableEq, Repr

/-! ## Inbound messages (src/src/belabox/messages.rs)

Only the payloads the verified code paths inspect are carried; the remaining
variants are opaque constructors.  `remoteAuth` carries the `auth/key` boolean
(struct `RemoteAuth`), `remoteEncoder` the `is_encoder_online` flag,
`streamingStatus`/`status` the `is_streaming` flag (structs `StreamingStatus`
and `Status`); src/src/bot.rs matches these as top-level `Message` variants. -/

/-- Struct `Config` from src/src/belabox/messages.rs lines 49-61. -/
structure Config where
  remote_key : String
  max_br : Nat
  delay : Int
  pipeline : String
  srt_latency : Nat
  bitrate_overlay : Bool
  ssh_pass : Option String
  asrc : String
  acodec : String
  relay_server : String
  relay_account : String
  deriving DecidableEq, Repr

/-- Inbound `Message` variants, as consumed by src/src/belabox.rs (the
`RemoteAuth` check in `handle_messages`) and src/src/bot.rs
(`handle_belabox_messages`).  Variants whose payloads the verified paths do
not inspect are collapsed into `otherKind`. -/
inductive Message where
  | remoteAuth (auth_key : Bool)
  | remoteEncoder (is_encoder_online : Bool)
  | config (c : Config)
  | bitrateMsg (max_br : Nat)
  | streamingStatus (is_streaming : Bool)
  | statusMsg (is_streaming : Bool)
  | otherKind (tag : String)
  deriving DecidableEq, Repr

/-! ## Outbound requests (src/src/belabox/requests.rs) -/

/-- Struct `Start` from src/src/belabox/requests.rs lines 31-44. -/
structure Start where
  pipeline : String
  delay : Int
  max_br : Nat
  srt_latency : Nat
  bitrate_overlay : Bool
  asrc : Option String
  acodec : Option String
  remote_key : String
  relay_server : Option String
  relay_account : Option String
  deriving DecidableEq, Repr

/-- Conversion `impl From<Config> for Start`, src/src/belabox/requests.rs lines 46-61.
The snapshot's `messages::Config` holds these four fields as plain `String`
while `Start` holds `Option<String>`; the copy is embedded as `some`. -/
def Start.fromConfig (c : Config) : Start :=
  { pipeline := c.pipeline
    delay := c.delay
    max_br := c.max_br
    srt_latency := c.srt_latency
    bitrate_overlay := c.bitrate_overlay
    asrc := some c.asrc
    acodec := some c.acodec
    remote_key := c.remote_key
    relay_server := some c.relay_server
    relay_account := some c.relay_account }

/-- Struct `Bitrate` from src/src/belabox/requests.rs lines 63-66. -/
structure BitrateReq where
  max_br : Nat
  deriving DecidableEq, Repr

/-- Struct `Netif` from src/src/belabox/requests.rs lines 68-73. -/
structure NetifReq where
  name : String
  ip : String
  enabled : Bool
  deriving DecidableEq, Repr

/-- Enum `Command` from src/src/belabox/requests.rs lines 15-20. -/
inductive Command where
  | poweroff
  | reboot
  deriving DecidableEq, Repr

/-- Enum `Remote` from src/src/belabox/requests.rs lines 22-29. -/
inductive Remote where
  | authKey (key : String) (version : Nat)
  | authToken (token : String) (version : Nat)
  deriving DecidableEq, Repr

/-- Enum `Request` from src/src/belabox/requests.rs lines 3-13.  Note the snapshot
declares `Stop(u8)` (its unit test serializes `Stop(0)` to `{"stop":0}`),
not an optional payload. -/
inductive Request where
  | bitrate (b : BitrateReq)
  | command (c : Command)
  | keepalive (p : Option Unit)
  | netif (n : NetifReq)
  | remote (r : Remote)
  | start (s : Start)
  | stop (n : Nat)
  deriving DecidableEq, Repr

/-! ## Reconnect backoff (src/src/belabox.rs lines 178-198, `get_connection`)

`get_connection` keeps a local `retry_grow` counter starting at 1; after each
failed connect attempt it sleeps `1 << retry_grow` seconds and then increments
`retry_grow` while it is below 5.  The counter is local to the call, so every
invocation (one per reconnect) starts afresh. -/

/-- The `if retry_grow < 5 { retry_grow += 1 }` step of `get_connection`
(src/src/belabox.rs lines 194-196). -/
def nextRetryGrow (r : Nat) : Nat :=
  if r < 5 then r + 1 else r

/-- Value of `retry_grow` after `k` failed attempts of one `get_connection`
call (it starts at 1, src/src/belabox.rs line 179). -/
def retryGrowAfter : Nat → Nat
  | 0 => 1
  | k + 1 => nextRetryGrow (retryGrowAfter k)

/-- Seconds slept before retrying after the `k`-th consecutive failure
(`wait = 1 << retry_grow`, src/src/belabox.rs line 189); `k` counts from 1. -/
def waitAfterFailure (k : Nat) : Nat :=
  2 ^ retryGrowAfter (k - 1)

/-- Trace semantics of the supervisor's connect attempts across reconnects:
`outcomes` lists the success/failure of successive `connect_async` calls and
`r` is the current `retry_grow`.  A success ends the current `get_connection`
call, so the next call starts with a fresh counter of 1; a failure emits the
`1 << retry_grow` wait and steps the counter. -/
def connectionTrace : List Bool → Nat → List Nat
  | [], _ => []
  | true :: rest, _ => connectionTrace rest 1
  | false :: rest, r => 2 ^ r :: connectionTrace rest (nextRetryGrow r)

/-! ## Inbound dispatcher (src/src/belabox.rs lines 227-282, `handle_messages`)

A websocket frame is either a close frame (logged and skipped), some other
non-text frame (skipped by the `TMessage::Text` match), a text frame whose
JSON fails to parse or is not an object (skipped), or a parsed object: a list
of `(key, decoded field)` pairs in which `none` stands for a field whose value
failed to decode into a `Message` (logged and skipped).  A transport error
(`read.next()` yielding `Some(Err(_))`) ends the `while let` loop. -/

/-- One inbound websocket frame as seen by `handle_messages`. -/
inductive Frame where
  | close
  | nonText
  | badText
  | text (fields : List (String × Option Message))
  | transportError
  deriving DecidableEq, Repr

/-- The `for (key, value) in text` loop body of `handle_messages`
(src/src/belabox.rs lines 257-275): skip undecodable fields, return
`AuthFailed` immediately on a `RemoteAuth` with `auth_key == false`
(without broadcasting it), otherwise broadcast the decoded message.
Returns the broadcast messages and whether auth failure was hit. -/
def processFields : List (String × Option Message) → List Message × Bool
  | [] => ([], false)
  | (_, none) :: rest => processFields rest
  | (_, some m) :: rest =>
    match m with
    | .remoteAuth false => ([], true)
    | _ =>
      let (ms, failed) := processFields rest
      (m :: ms, failed)

/-- Function `handle_messages` (src/src/belabox.rs lines 227-282): fold over the
inbound frames, returning the full list of broadcast messages and the final
result — `some .authFailed` for the `Err(BelaboxError::AuthFailed)` return,
`none` for the `Ok(())` return when the stream ends or errors. -/
def handle_messages : List Frame → List Message × Option BelaboxError
  | [] => ([], none)
  | .close :: rest => handle_messages rest
  | .nonText :: rest => handle_messages rest
  | .badText :: rest => handle_messages rest
  | .transportError :: _ => ([], none)
  | .text fields :: rest =>
    let (ms, failed) := processFields fields
    if failed then (ms, some .authFailed)
    else
      let (ms2, e) := handle_messages rest
      (ms ++ ms2, e)

/-- Outcome of one iteration of the supervisor loop body. -/
inductive LoopOutcome where
  | reconnect
  | terminate
  deriving DecidableEq, Repr

/-- One iteration of the `loop` in `run_loop` (src/src/belabox.rs lines
145-175): connect (always eventually succeeds), send the auth frame (on
error, `continue` — reconnect), run `handle_messages`; `break` — ending the
supervisor task — exactly when it returned `Err(BelaboxError::AuthFailed)`,
otherwise loop again (reconnect). -/
def run_loop_iteration (authSendOk : Bool) (frames : List Frame) : LoopOutcome :=
  if authSendOk then
    match (handle_messages frames).2 with
    | some .authFailed => .terminate
    | _ => .reconnect
  else .reconnect

/-! ## Outbound request gateway (src/src/belabox.rs lines 84-95 and 285-307)

`Belabox::send` serializes the request, creates a oneshot completion slot and
enqueues the pair on the unbounded channel; `handle_requests` dequeues each
item, locks the shared writer slot and responds on the completion slot:
`Ok(())` or `Err(Send)` from the write when a writer is present, and
`Err(Disconnected)` immediately when the slot holds `None`.  The writer slot
is set on connect and cleared on disconnect by `run_loop`, so its contents at
the moment a queued item is processed are the item's environment: `none`
models an absent writer, `some ok` a present writer whose `send` returns
`ok`. -/

/-- The serialized message `Belabox::send` enqueues (src/src/belabox.rs
lines 84-92); the completion slot is implicit — `handle_request` below is its
single resolution. -/
structure InnerMessage where
  message : Request
  deriving DecidableEq, Repr

/-- Resolution of one queued request by `handle_requests`
(src/src/belabox.rs lines 289-306), as a function of the writer slot observed
under the lock. -/
def handle_request (writer : Option Bool) : Except BelaboxError Unit :=
  match writer with
  | some true => .ok ()
  | some false => .error .sendErr
  | none => .error .disconnected

/-- The `while let Some(request) = inner_rx.recv()` loop of `handle_requests`
(src/src/belabox.rs lines 285-307): every dequeued request is answered by
exactly one `respond.send`.  Each list entry pairs the queued message with
the writer slot observed when that entry is processed. -/
def handle_requests (queue : List (InnerMessage × Option Bool)) :
    List (Except BelaboxError Unit) :=
  queue.map (fun q => handle_request q.2)

/-! ## Orchestrator state (BelaState)

src/src/command_handler.rs reads and writes the fields `online`,
`is_streaming`, `restart` and `config` of `bot::BelaState`.  The
`src/src/bot.rs` in this snapshot is an older revision whose `BelaState`
lacks the `restart` field; the struct is embedded with the fields the
command handler uses. -/

/-- The `BelaState` fields used by src/src/command_handler.rs. -/
structure BelaState where
  online : Bool
  is_streaming : Bool
  restart : Bool
  config : Option Config
  deriving DecidableEq, Repr

/-- Command-handler errors: `Error::Belabox` wrapping a `BelaboxError`
(src/src/error.rs), the only variant the verified paths produce. -/
inductive CmdError where
  | belabox (e : BelaboxError)
  deriving DecidableEq, Repr

/-- Method `CommandHandler::restart` (src/src/command_handler.rs lines 244-265).
Under the write lock: if `restart` is already set, return `AlreadyRestarting`
with no mutation; otherwise set it when streaming.  After releasing the lock:
if streaming, send `stop` (propagating a send error with `?`), then send the
`reboot` command (again propagating).  `stopResult`/`rebootResult` are the
outcomes `Belabox::stop`/`Belabox::restart` would return; the middle
component lists the requests actually issued (`Belabox::stop` sends the
no-argument stop, `Belabox::restart` sends `Command::Reboot`). -/
def restartCmd (st : BelaState) (stopResult rebootResult : Except BelaboxError Unit) :
    BelaState × List Request × Except CmdError String :=
  if st.restart then
    (st, [], .error (.belabox .alreadyRestarting))
  else
    let st' := if st.is_streaming then { st with restart := true } else st
    if st.is_streaming then
      match stopResult with
      | .error e => (st', [Request.stop 0], .error (.belabox e))
      | .ok () =>
        match rebootResult with
        | .error e => (st', [Request.stop 0, Request.command .reboot], .error (.belabox e))
        | .ok () => (st', [Request.stop 0, Request.command .reboot], .ok "Rebooting BELABOX")
    else
      match rebootResult with
      | .error e => (st', [Request.command .reboot], .error (.belabox e))
      | .ok () => (st', [Request.command .reboot], .ok "Rebooting BELABOX")

/-- Modelled from the spec: the streaming-status fold of the orchestrator's
event loop.  The spec states "the flag is set so that the orchestrator
automatically re-issues start once a subsequent streaming-status Event
confirms the appliance came back online" and "the restart-pending flag is
true for at most the interval between a restart request and the next
observed is_streaming transition".  The `src/src/bot.rs` in this snapshot is
an older revision whose `handle_belabox_messages` (lines 152-159) only
stores `is_streaming` and whose `BelaState` has no `restart` field, so the
fold that clears the flag and re-issues start is absent from src/ and is
modelled here: on a streaming-status event, store the new `is_streaming`;
if the restart flag is set, clear it and re-issue `start` from the cached
config. -/
def handleStreamingStatus (st : BelaState) (is_streaming : Bool) :
    BelaState × List Request :=
  let st' := { st with is_streaming := is_streaming }
  if st'.restart then
    ({ st' with restart := false },
      match st'.config with
      | some c => [Request.start (Start.fromConfig c)]
      | none => [])
  else (st', [])

/-! ## Bitrate command (src/src/command_handler.rs lines 272-306 and 676-685) -/

/-- Digit-by-digit accumulation of a decimal numeral; `none` on any
non-digit character. -/
def parseNatCore : List Char → Nat → Option Nat
  | [], acc => some acc
  | c :: rest, acc =>
    if c.isDigit then parseNatCore rest (acc * 10 + (c.toNat - 48)) else none

/-- Model of `str::parse::<u32>()` on the chat argument: a nonempty string of
decimal digits whose value fits in 32 bits (the optional `+` sign accepted by
`u32::from_str` is not modelled; no chat input exercised here carries one). -/
def parse_u32 (s : String) : Option Nat :=
  match s.data with
  | [] => none
  | l =>
    match parseNatCore l 0 with
    | some v => if v < 2 ^ 32 then some v else none
    | none => none

/-- Function `increment_by_step` (src/src/command_handler.rs lines 676-685):
`(value / step).round() * step` on `f64`, specialized to the nonnegative
integer values and even steps used by `bitrate` (`value ≤ 12000`,
`step = 250`), where `f64` rounding (half away from zero) coincides with
exact rational rounding: `((value + step / 2) / step) * step`. -/
def increment_by_step (value step : Nat) : Nat :=
  ((value + step / 2) / step) * step

/-- Method `CommandHandler::bitrate` (src/src/command_handler.rs lines 272-306):
missing argument and parse failures answer fixed messages; a parsed value
outside `500..=12000` answers the invalid-value message; otherwise the value
is normalized with `increment_by_step(_, 250)`, a `Bitrate` request is sent
(`sendResult` is its outcome, propagated with `?` on error), and on success
`config.max_br` is updated when a config is cached. -/
def bitrateCmd (st : BelaState) (arg : Option String)
    (sendResult : Except BelaboxError Unit) :
    BelaState × List Request × Except CmdError String :=
  match arg with
  | none => (st, [], .ok "No bitrate given")
  | some s =>
    match parse_u32 s with
    | none => (st, [], .ok ("Invalid number " ++ s ++ " given"))
    | some v =>
      if v < 500 ∨ 12000 < v then
        (st, [],
          .ok ("Invalid value: " ++ toString v ++ ", use a value between 500 - 12000"))
      else
        let nb := increment_by_step v 250
        match sendResult with
        | .error e => (st, [Request.bitrate ⟨nb⟩], .error (.belabox e))
        | .ok () =>
          let st' :=
            match st.config with
            | some c => { st with config := some { c with max_br := nb } }
            | none => st
          (st', [Request.bitrate ⟨nb⟩],
            .ok ("Changed max bitrate to " ++ toString nb ++ " kbps"))

/-! ## Wire codec (serde_json serialization of `Request`)

serde's externally-tagged representation with `rename_all = "camelCase"`
(src/src/belabox/requests.rs line 4): one object whose single key is the
variant name, its value the payload.  Struct fields serialize in declaration
order; `#[serde_with::skip_serializing_none]` on `Start` omits `None`
fields; `Option<()>` (keepalive) serializes to `null` either way; unit enum
variants (`Command`) serialize to their renamed string. -/

/-- Minimal JSON value tree (no arrays occur in any `Request` payload). -/
inductive Json where
  | null
  | bool (b : Bool)
  | num (n : Int)
  | str (s : String)
  | obj (fields : List (String × Json))

/-- A `skip_serializing_none` field: omitted when `None`. -/
def optField (name : String) : Option String → List (String × Json)
  | none => []
  | some v => [(name, .str v)]

/-- Payload of `Start` (src/src/belabox/requests.rs lines 31-44), fields in
declaration order, `None` fields omitted. -/
def Start.toJson (s : Start) : Json :=
  .obj ([("pipeline", .str s.pipeline),
         ("delay", .num s.delay),
         ("max_br", .num s.max_br),
         ("srt_latency", .num s.srt_latency),
         ("bitrate_overlay", .bool s.bitrate_overlay)]
        ++ optField "asrc" s.asrc
        ++ optField "acodec" s.acodec
        ++ [("remote_key", .str s.remote_key)]
        ++ optField "relay_server" s.relay_server
        ++ optField "relay_account" s.relay_account)

/-- Payload of `Remote` (src/src/belabox/requests.rs lines 22-29): externally
tagged with the explicit renames `auth/key` and `auth/token`. -/
def Remote.toJson : Remote → Json
  | .authKey key version =>
    .obj [("auth/key", .obj [("key", .str key), ("version", .num version)])]
  | .authToken token version =>
    .obj [("auth/token", .obj [("token", .str token), ("version", .num version)])]

/-- The camelCase tag of a `Command` unit variant. -/
def Command.tag : Command → String
  | .poweroff => "poweroff"
  | .reboot => "reboot"

/-- The single top-level key of a serialized `Request` (camelCase variant
name, src/src/belabox/requests.rs lines 3-13). -/
def Request.key : Request → String
  | .bitrate _ => "bitrate"
  | .command _ => "command"
  | .keepalive _ => "keepalive"
  | .netif _ => "netif"
  | .remote _ => "remote"
  | .start _ => "start"
  | .stop _ => "stop"

/-- serde_json serialization of `Request` (src/src/belabox/requests.rs lines
3-13; checked variant by variant against the crate's own unit tests, lines
75-173: keepalive ↦ `{"keepalive":null}`, stop ↦ `{"stop":0}`, reboot ↦
`{"command":"reboot"}`, …). -/
def Request.toJson : Request → Json
  | .bitrate b => .obj [("bitrate", .obj [("max_br", .num b.max_br)])]
  | .command c => .obj [("command", .str c.tag)]
  | .keepalive _ => .obj [("keepalive", .null)]
  | .netif n =>
    .obj [("netif", .obj [("name", .str n.name), ("ip", .str n.ip),
                          ("enabled", .bool n.enabled)])]
  | .remote r => .obj [("remote", r.toJson)]
  | .start s => .obj [("start", s.toJson)]
  | .stop n => .obj [("stop", .num n)]

/-! ## Fuzzy lookup (src/src/command_handler.rs lines 586-603 and 645-658)

Both `pipeline` and `audio_src` score every candidate with
`strsim::sorensen_dice` against the user's query and select with
`.min_by(|a, b| b.1.partial_cmp(&a.1).unwrap())`, i.e. the maximum score
with ties kept on the earlier candidate; a best score of `0.0` answers the
not-found message.  `strsim` is an external crate; its `sorensen_dice` —
strip whitespace, special-case empty/equal/too-short inputs, then
`2·|bigrams(a) ∩ bigrams(b)| / (|a| + |b| − 2)` with a counted (multiset)
bigram intersection — is embedded below over `ℚ` (all scores are exact
rationals; the `f64` comparisons at these magnitudes are exact). -/

/-- The whitespace strip at the top of `strsim::sorensen_dice`. -/
def stripWs (l : List Char) : List Char :=
  l.filter (fun c => !c.isWhitespace)

/-- Consecutive character bigrams. -/
def bigrams : List Char → List (Char × Char)
  | [] => []
  | [_] => []
  | a :: b :: rest => (a, b) :: bigrams (b :: rest)

/-- Size of the counted bigram intersection (the hash-map consume loop in
`strsim::sorensen_dice`). -/
def bigramInter (a b : List Char) : Nat :=
  ((bigrams a : Multiset (Char × Char)) ∩ (bigrams b : Multiset (Char × Char))).card

/-- Function `strsim::sorensen_dice`, over exact rationals. -/
def sorensen_dice (qa qb : String) : ℚ :=
  let a := stripWs qa.data
  let b := stripWs qb.data
  if a.length = 0 ∧ b.length = 0 then 1
  else if a.length = 0 ∨ b.length = 0 then 0
  else if a = b then 1
  else if a.length = 1 ∧ b.length = 1 then 0
  else if a.length < 2 ∨ b.length < 2 then 0
  else (2 * bigramInter a b : ℚ) / ((a.length + b.length - 2 : ℕ) : ℚ)

/-- One comparison step of `Iterator::min_by` with the comparator
`|a, b| b.1.partial_cmp(&a.1).unwrap()`: the running best is replaced only
when the new candidate scores strictly higher. -/
def bestStep {α : Type} (score : α → ℚ) (best y : α) : α :=
  if score best < score y then y else best

/-- Selection by `Iterator::min_by` with the reversed comparator: the maximum score wins
and ties keep the earlier element; `none` on an empty iterator. -/
def pickBest {α : Type} (score : α → ℚ) : List α → Option α
  | [] => none
  | x :: rest => some (rest.foldl (bestStep score) x)

/-- Lowercasing `to_lowercase()` at the character level (the names here are ASCII, where
Rust's Unicode lowercasing and per-character lowercasing agree). -/
def lowerStr (s : String) : String :=
  ⟨s.data.map Char.toLower⟩

/-- The candidate normalization in `CommandHandler::pipeline` line 590:
`p.to_lowercase().replace('_', " ")` — for the single-character pattern and
replacement this is a per-character substitution. -/
def normalizePipelineName (p : String) : String :=
  ⟨(lowerStr p).data.map (fun c => if c = '_' then ' ' else c)⟩

/-- Score of a `(hash, name)` pipeline candidate against the query
(src/src/command_handler.rs line 591). -/
def pscore (query : String) (c : String × String) : ℚ :=
  sorensen_dice query (normalizePipelineName c.2)

/-- Score of an audio-source name against the query
(src/src/command_handler.rs line 648). -/
def ascore (query : String) (s : String) : ℚ :=
  sorensen_dice query (lowerStr s)

/-- The selection shape shared by `pipeline` and `audio_src`: maximum score
via `min_by` with the reversed comparator, not-found on an empty candidate
list or a best score of `0.0`. -/
def fuzzyFind {α : Type} (score : α → ℚ) (l : List α) : Option α :=
  match pickBest score l with
  | none => none
  | some p => if score p = 0 then none else some p

/-- The "find pipeline" block of `CommandHandler::pipeline`
(src/src/command_handler.rs lines 586-603), over the `(hash, name)`
candidate list. -/
def pipelineFind (query : String) (pipelines : List (String × String)) :
    Option (String × String) :=
  fuzzyFind (pscore query) pipelines

/-- The "find audio src" block of `CommandHandler::audio_src`
(src/src/command_handler.rs lines 645-658), over the audio source names. -/
def audioSrcFind (query : String) (asrcs : List String) : Option String :=
  fuzzyFind (ascore query) asrcs

/-! ## Permission check (src/src/command_handler.rs lines 89-112 and
src/src/bot.rs lines 215-229 — the two copies compute identically) -/

/-- Enum `Permission` from src/src/config.rs lines 83-89. -/
inductive Permission where
  | broadcaster
  | moderator
  | vip
  | publicTier
  deriving DecidableEq, Repr

/-- Struct `HandleMessage` from src/src/twitch.rs lines 24-31. -/
structure HandleMessage where
  channel_name : String
  sender_name : String
  broadcaster : Bool
  moderator : Bool
  vip : Bool
  message : String
  deriving DecidableEq, Repr

/-- Method `CommandHandler::is_allowed_to_execute` (src/src/command_handler.rs lines
89-112): a sender named in `admins` counts as broadcaster; each tier's flag
is the disjunction of the tier above it with the sender's own badge flag. -/
def is_allowed_to_execute (admins : List String) (p : Permission)
    (hm : HandleMessage) : Bool :=
  let broadcaster := hm.broadcaster || admins.contains hm.sender_name
  let moderator := broadcaster || hm.moderator
  let vip := moderator || hm.vip
  match p with
  | .broadcaster => broadcaster
  | .moderator => moderator
  | .vip => vip
  | .publicTier => true

/-- Restrictiveness rank of a permission tier
(broadcaster ≥ moderator ≥ vip ≥ public). -/
def Permission.rank : Permission → Nat
  | .broadcaster => 3
  | .moderator => 2
  | .vip => 1
  | .publicTier => 0

/-! ## Concrete fixtures used by the evaluation theorems -/

/-- A concrete cached configuration. -/
def sampleConfig : Config :=
  { remote_key := "rk"
    max_br := 2000
    delay := 0
    pipeline := "h1"
    srt_latency := 2000
    bitrate_overlay := false
    ssh_pass := none
    asrc := "mic"
    acodec := "opus"
    relay_server := "r"
    relay_account := "a" }

/-- A concrete orchestrator state: online and streaming, no restart pending,
with `sampleConfig` cached. -/
def sampleState : BelaState :=
  { online := true
    is_streaming := true
    restart := false
    config := some sampleConfig }

/-- A concrete request queue: one request processed with a live writer, one
processed after the writer slot was cleared. -/
def sampleQueue : List (InnerMessage × Option Bool) :=
  [(⟨Request.stop 0⟩, some true), (⟨Request.keepalive none⟩, none)]

/-- A concrete chat message from an admin-listed sender with no badges. -/
def adminMsg : HandleMessage :=
  { channel_name := "chan"
    sender_name := "alice"
    broadcaster := false
    moderator := false
    vip := false
    message := "!bb bitrate 537" }

end Belabot

namespace Belabot

/-! ## Lemmas about the backoff counter -/

lemma retryGrowAfter_eq (k : Nat) : retryGrowAfter k = min (k + 1) 5 := by
  induction k with
  | zero => simp [retryGrowAfter]
  | succ n ih =>
    simp only [retryGrowAfter, ih, nextRetryGrow]
    split <;> omega

lemma pow_two_min_five (a : Nat) : 2 ^ min a 5 = min (2 ^ a) 32 := by
  rcases le_total a 5 with h | h
  · rw [min_eq_left h, min_eq_left (Nat.pow_le_pow_right (by norm_num) h)]
  · rw [min_eq_right h, min_eq_right (Nat.pow_le_pow_right (by norm_num) h)]

lemma connectionTrace_replicate (n r : Nat) (hr : r ≤ 5) :
    connectionTrace (List.replicate n false) r =
      (List.range n).map (fun i => 2 ^ min (r + i) 5) := by
  induction n generalizing r with
  | zero => simp [connectionTrace]
  | succ m ih =>
    rw [List.replicate_succ, List.range_succ_eq_map]
    simp only [connectionTrace, List.map_cons, List.map_map]
    rw [ih (nextRetryGrow r) (by unfold nextRetryGrow; split <;> omega)]
    congr 1
    · congr 1
      omega
    · apply List.map_congr_left
      intro i _
      simp only [Function.comp_apply, nextRetryGrow]
      split <;> congr 1 <;> omega

/-! ## Lemmas about the Dice score -/

lemma bigrams_length (l : List Char) : (bigrams l).length = l.length - 1 := by
  induction l with
  | nil => simp [bigrams]
  | cons a tail ih =>
    cases tail with
    | nil => simp [bigrams]
    | cons b rest =>
      simp only [bigrams, List.length_cons] at ih ⊢
      omega

lemma bigramInter_le_left (a b : List Char) :
    bigramInter a b ≤ (bigrams a).length := by
  have h := Multiset.card_le_card
    (Multiset.inter_le_left (↑(bigrams a) : Multiset (Char × Char)) ↑(bigrams b))
  simpa [bigramInter] using h

lemma bigramInter_le_right (a b : List Char) :
    bigramInter a b ≤ (bigrams b).length := by
  have h := Multiset.card_le_card
    (Multiset.inter_le_right (↑(bigrams a) : Multiset (Char × Char)) ↑(bigrams b))
  simpa [bigramInter] using h

lemma sorensen_dice_self (s : String) : sorensen_dice s s = 1 := by
  simp only [sorensen_dice]
  rcases Nat.eq_zero_or_pos (stripWs s.data).length with h | h
  · simp [h]
  · have h0 : ¬ (stripWs s.data).length = 0 := by omega
    simp [h0]

lemma sorensen_dice_le_one (qa qb : String) : sorensen_dice qa qb ≤ 1 := by
  simp only [sorensen_dice]
  split_ifs with h1 h2 h3 h4 h5
  · exact le_refl 1
  · exact zero_le_one
  · exact le_refl 1
  · exact zero_le_one
  · exact zero_le_one
  · push_neg at h5
    have hIa := bigramInter_le_left (stripWs qa.data) (stripWs qb.data)
    have hIb := bigramInter_le_right (stripWs qa.data) (stripWs qb.data)
    rw [bigrams_length] at hIa hIb
    rw [div_le_one (by exact_mod_cast Nat.pos_of_ne_zero (by omega))]
    have hle : 2 * bigramInter (stripWs qa.data) (stripWs qb.data)
        ≤ (stripWs qa.data).length + (stripWs qb.data).length - 2 := by omega
    exact_mod_cast hle

lemma sorensen_dice_eq_zero_of (qa qb : String)
    (hne : stripWs qa.data ≠ stripWs qb.data)
    (hnz : ¬ ((stripWs qa.data).length = 0 ∧ (stripWs qb.data).length = 0))
    (hI : bigramInter (stripWs qa.data) (stripWs qb.data) = 0) :
    sorensen_dice qa qb = 0 := by
  simp only [sorensen_dice]
  split_ifs with h1 h2 h3
  · rfl
  · rfl
  · rfl
  · rw [hI]
    simp

/-! ## Lemmas about the min_by selection -/

lemma foldl_bestStep_spec {α : Type} (score : α → ℚ) (rest : List α) (x : α) :
    ∃ l1 l2,
      x :: rest = l1 ++ (rest.foldl (bestStep score) x) :: l2 ∧
      (∀ c ∈ l1, score c < score (rest.foldl (bestStep score) x)) ∧
      (∀ c ∈ l2, score c ≤ score (rest.foldl (bestStep score) x)) := by
  induction rest generalizing x with
  | nil => exact ⟨[], [], rfl, by simp, by simp⟩
  | cons y rest ih =>
    rw [List.foldl_cons]
    by_cases hxy : score x < score y
    · rw [show bestStep score x y = y from if_pos hxy]
      obtain ⟨l1, l2, heq, h1, h2⟩ := ih y
      have hxr : score x < score (rest.foldl (bestStep score) y) := by
        cases l1 with
        | nil =>
          simp only [List.nil_append] at heq
          obtain ⟨hy, -⟩ := List.cons.inj heq
          exact hy ▸ hxy
        | cons a l1t =>
          simp only [List.cons_append] at heq
          obtain ⟨hy, -⟩ := List.cons.inj heq
          exact lt_trans (hy ▸ hxy) (h1 a (List.mem_cons_self a l1t))
      refine ⟨x :: l1, l2, ?_, ?_, h2⟩
      · rw [List.cons_append, ← heq]
      · intro c hc
        rcases List.mem_cons.mp hc with rfl | hc
        · exact hxr
        · exact h1 c hc
    · rw [show bestStep score x y = x from if_neg hxy]
      obtain ⟨l1, l2, heq, h1, h2⟩ := ih x
      cases l1 with
      | nil =>
        simp only [List.nil_append] at heq
        obtain ⟨hx, hrest⟩ := List.cons.inj heq
        refine ⟨[], y :: l2, ?_, by simp, ?_⟩
        · rw [List.nil_append, ← hx, ← hrest]
        · intro c hc
          rcases List.mem_cons.mp hc with rfl | hc
          · exact hx ▸ (not_lt.mp hxy)
          · exact h2 c hc
      | cons a l1t =>
        simp only [List.cons_append] at heq
        obtain ⟨hx, hrest⟩ := List.cons.inj heq
        have hxr : score x < score (rest.foldl (bestStep score) x) :=
          hx ▸ h1 a (List.mem_cons_self a l1t)
        refine ⟨x :: y :: l1t, l2, ?_, ?_, h2⟩
        · rw [List.cons_append, List.cons_append, ← hrest]
        · intro c hc
          rcases List.mem_cons.mp hc with rfl | hc
          · exact hxr
          · rcases List.mem_cons.mp hc with rfl | hc
            · exact lt_of_le_of_lt (not_lt.mp hxy) hxr
            · exact h1 c (List.mem_cons_of_mem a hc)

lemma pickBest_spec {α : Type} (score : α → ℚ) (l : List α) (r : α)
    (h : pickBest score l = some r) :
    ∃ l1 l2, l = l1 ++ r :: l2 ∧
      (∀ c ∈ l1, score c < score r) ∧ (∀ c ∈ l2, score c ≤ score r) := by
  cases l with
  | nil => simp [pickBest] at h
  | cons x rest =>
    obtain ⟨l1, l2, heq, h1, h2⟩ := foldl_bestStep_spec score rest x
    have hr : rest.foldl (bestStep score) x = r := by
      simpa [pickBest] using h
    rw [hr] at heq h1 h2
    exact ⟨l1, l2, heq, h1, h2⟩

lemma pickBest_mem {α : Type} (score : α → ℚ) (l : List α) (r : α)
    (h : pickBest score l = some r) : r ∈ l := by
  obtain ⟨l1, l2, heq, -, -⟩ := pickBest_spec score l r h
  rw [heq]
  exact List.mem_append_right l1 (List.mem_cons_self r l2)

lemma pickBest_is_max {α : Type} (score : α → ℚ) (l : List α) (r : α)
    (h : pickBest score l = some r) : ∀ c ∈ l, score c ≤ score r := by
  obtain ⟨l1, l2, heq, h1, h2⟩ := pickBest_spec score l r h
  intro c hc
  rw [heq] at hc
  rcases List.mem_append.mp hc with hc | hc
  · exact le_of_lt (h1 c hc)
  · rcases List.mem_cons.mp hc with rfl | hc
    · exact le_refl _
    · exact h2 c hc

lemma pickBest_isSome {α : Type} (score : α → ℚ) (x : α) (rest : List α) :
    ∃ r, pickBest score (x :: rest) = some r :=
  ⟨rest.foldl (bestStep score) x, rfl⟩

lemma fuzzyFind_first_max {α : Type} (score : α → ℚ) (l : List α) (r : α)
    (h : fuzzyFind score l = some r) :
    ∃ l1 l2, l = l1 ++ r :: l2 ∧
      (∀ c ∈ l1, score c < score r) ∧ (∀ c ∈ l2, score c ≤ score r) := by
  apply pickBest_spec score l r
  rcases hp : pickBest score l with - | p
  · simp [fuzzyFind, hp] at h
  · by_cases hz : score p = 0
    · simp [fuzzyFind, hp, hz] at h
    · simp only [fuzzyFind, hp, if_neg hz] at h
      have hpr : p = r := Option.some.inj h
      subst hpr
      rfl

lemma fuzzyFind_none_of_zero {α : Type} (score : α → ℚ) (l : List α)
    (h : ∀ c ∈ l, score c = 0) : fuzzyFind score l = none := by
  rcases hp : pickBest score l with - | p
  · simp [fuzzyFind, hp]
  · simp [fuzzyFind, hp, h p (pickBest_mem score l p hp)]

lemma fuzzyFind_of_score_one {α : Type} (score : α → ℚ) (l : List α) (c : α)
    (hc : c ∈ l) (h1 : score c = 1) (hle : ∀ d ∈ l, score d ≤ 1) :
    ∃ r, fuzzyFind score l = some r ∧ score r = 1 := by
  cases l with
  | nil => simp at hc
  | cons x rest =>
    obtain ⟨p, hp⟩ := pickBest_isSome score x rest
    have hmax := pickBest_is_max score (x :: rest) p hp
    have hone : score p = 1 :=
      le_antisymm (hle p (pickBest_mem score (x :: rest) p hp))
        (h1 ▸ hmax c hc)
    refine ⟨p, ?_, hone⟩
    simp [fuzzyFind, hp, hone]

/-! ## Claim theorems -/

/-- Claim C1, counterexample: a concrete frame stream whose only frame
decodes to an authentication-failure event makes one iteration of the
supervisor loop body terminate the supervisor task (the `break` in
`run_loop`), not reconnect — refuting the claim that the supervisor
reconnects fresh and its loop never terminates on authentication failure. -/
theorem run_loop_auth_failure_cex :
    run_loop_iteration true [Frame.text [("remote", some (Message.remoteAuth false))]]
      = LoopOutcome.terminate ∧
    run_loop_iteration true [Frame.text [("remote", some (Message.remoteAuth false))]]
      ≠ LoopOutcome.reconnect := by
  exact ⟨rfl, by decide⟩

/-- Claim C1, amended: one iteration of the supervisor loop body ends the
supervisor task exactly when the auth frame was written and the inbound
dispatcher reported an authentication failure; on every other outcome
(auth-send failure, transport error, clean close, stream end) the supervisor
reconnects fresh. -/
theorem run_loop_terminates_iff_auth_failure (authSendOk : Bool) (frames : List Frame) :
    run_loop_iteration authSendOk frames = LoopOutcome.terminate ↔
      authSendOk = true ∧ (handle_messages frames).2 = some BelaboxError.authFailed := by
  cases authSendOk with
  | false => simp [run_loop_iteration]
  | true =>
    simp only [run_loop_iteration, if_true]
    rcases h : (handle_messages frames).2 with - | e
    · simp
    · cases e <;> simp

/-- Claim C1 witness: the amended equivalence evaluated at the concrete
auth-failure stream and at a concrete clean disconnect. -/
theorem run_loop_terminates_iff_auth_failure_witness :
    run_loop_iteration true [Frame.text [("status", some (Message.statusMsg true))]]
      = LoopOutcome.reconnect ∧
    run_loop_iteration true [Frame.text [("remote", some (Message.remoteAuth false))]]
      = LoopOutcome.terminate := by
  constructor
  · have h := run_loop_terminates_iff_auth_failure true
      [Frame.text [("status", some (Message.statusMsg true))]]
    rcases hr : run_loop_iteration true
      [Frame.text [("status", some (Message.statusMsg true))]] with - | -
    · rfl
    · exact absurd (h.mp hr).2 (by decide)
  · exact (run_loop_terminates_iff_auth_failure true
      [Frame.text [("remote", some (Message.remoteAuth false))]]).mpr ⟨rfl, by decide⟩

/-- Claim C2: every intent accepted by the gateway is resolved exactly once —
the response list has exactly one entry per queued request, and the entry is
success or a send error when a writer was present at processing time, and
the disconnected outcome when the connection had been torn down by then. -/
theorem accepted_request_resolved_once (queue : List (InnerMessage × Option Bool))
    (i : Nat) (h : i < queue.length) :
    (handle_requests queue).length = queue.length ∧
    ∃ outcome : Except BelaboxError Unit,
      (handle_requests queue).get? i = some outcome ∧
      outcome = handle_request (queue.get ⟨i, h⟩).2 ∧
      ((queue.get ⟨i, h⟩).2 = none → outcome = .error .disconnected) ∧
      (∀ ok : Bool, (queue.get ⟨i, h⟩).2 = some ok →
        outcome = if ok then .ok () else .error .sendErr) := by
  have hlen : (handle_requests queue).length = queue.length := by
    simp [handle_requests]
  have hm : (handle_requests queue).get? i
      = some (handle_request (queue.get ⟨i, h⟩).2) := by
    simp only [List.get?_eq_getElem?, handle_requests, List.getElem?_map,
      List.getElem?_eq_getElem (by simpa using h), Option.map_some',
      List.get_eq_getElem]
  refine ⟨hlen, handle_request (queue.get ⟨i, h⟩).2, hm, rfl, ?_, ?_⟩
  · intro hw
    rw [List.get_eq_getElem] at hw
    simp [handle_request, hw]
  · intro ok hw
    rw [List.get_eq_getElem] at hw
    cases ok <;> simp [handle_request, hw]

/-- Claim C2 witness: the sample queue — one request served by a live
writer, one processed after teardown — resolved at position 1. -/
theorem accepted_request_resolved_once_witness :
    1 < sampleQueue.length ∧
    ((handle_requests sampleQueue).length = sampleQueue.length ∧
     ∃ outcome : Except BelaboxError Unit,
       (handle_requests sampleQueue).get? 1 = some outcome ∧
       outcome = handle_request (sampleQueue.get ⟨1, by decide⟩).2 ∧
       ((sampleQueue.get ⟨1, by decide⟩).2 = none → outcome = .error .disconnected) ∧
       (∀ ok : Bool, (sampleQueue.get ⟨1, by decide⟩).2 = some ok →
         outcome = if ok then .ok () else .error .sendErr)) :=
  ⟨by decide, accepted_request_resolved_once sampleQueue 1 (by decide)⟩

/-- Claim C3: a restart requested while streaming sets the restart-pending
flag, and the next streaming-status event clears it and re-issues a start
intent built from the cached config — so the flag is true for at most the
interval between the restart request and the next observed streaming-status
transition.  (The streaming-status fold is `handleStreamingStatus`, modelled
from the spec: the snapshot's src/src/bot.rs is an older revision without
the restart field.) -/
theorem restart_pending_set_and_cleared (st : BelaState)
    (sr rr : Except BelaboxError Unit) (b : Bool) (c : Config)
    (hres : st.restart = false) (hstr : st.is_streaming = true)
    (hcfg : st.config = some c) :
    ((restartCmd st sr rr).1).restart = true ∧
    ((handleStreamingStatus (restartCmd st sr rr).1 b).1).restart = false ∧
    (handleStreamingStatus (restartCmd st sr rr).1 b).2
      = [Request.start (Start.fromConfig c)] := by
  have h1 : (restartCmd st sr rr).1 = { st with restart := true } := by
    rcases sr with e | u
    · simp [restartCmd, hres, hstr]
    · cases u
      rcases rr with e | u
      · simp [restartCmd, hres, hstr]
      · cases u
        simp [restartCmd, hres, hstr]
  rw [h1]
  refine ⟨rfl, ?_, ?_⟩
  · simp [handleStreamingStatus]
  · simp [handleStreamingStatus, hcfg]

/-- Claim C3 witness: the concrete streaming sample state — restart sets the
flag, the next streaming-status event clears it and re-issues start. -/
theorem restart_pending_set_and_cleared_witness :
    (sampleState.restart = false ∧ sampleState.is_streaming = true ∧
     sampleState.config = some sampleConfig) ∧
    (((restartCmd sampleState (.ok ()) (.ok ())).1).restart = true ∧
     ((handleStreamingStatus (restartCmd sampleState (.ok ()) (.ok ())).1 false).1).restart
       = false ∧
     (handleStreamingStatus (restartCmd sampleState (.ok ()) (.ok ())).1 false).2
       = [Request.start (Start.fromConfig sampleConfig)]) :=
  ⟨⟨rfl, rfl, rfl⟩,
   restart_pending_set_and_cleared sampleState (.ok ()) (.ok ()) false sampleConfig
     rfl rfl rfl⟩

/-- Claim C4: within one reconnect run the k-th consecutive connection
failure waits min(2^k, 32) seconds — the sequence 2, 4, 8, 16, 32, 32, … —
and a successful connect ends the run, the next run starting from a fresh
counter so its first failure again waits 2 seconds. -/
theorem backoff_sequence (n : Nat) (outcomes : List Bool) (r k : Nat) :
    (connectionTrace (List.replicate n false) 1
       = (List.range n).map (fun i => min (2 ^ (i + 1)) 32)) ∧
    (connectionTrace (true :: outcomes) r = connectionTrace outcomes 1) ∧
    (1 ≤ k → waitAfterFailure k = min (2 ^ k) 32) := by
  refine ⟨?_, rfl, ?_⟩
  · rw [connectionTrace_replicate n 1 (by omega)]
    apply List.map_congr_left
    intro i _
    rw [← pow_two_min_five]
    congr 1
    omega
  · intro hk
    unfold waitAfterFailure
    rw [retryGrowAfter_eq, ← pow_two_min_five]
    congr 1
    omega

/-- Claim C4 witness: six straight failures wait 2, 4, 8, 16, 32, 32
seconds; a success resets the counter; the sixth failure's wait is
min(2^6, 32) = 32. -/
theorem backoff_sequence_witness :
    connectionTrace (List.replicate 6 false) 1 = [2, 4, 8, 16, 32, 32] ∧
    connectionTrace (true :: [false]) 5 = [2] ∧
    (1 ≤ 6 ∧ waitAfterFailure 6 = 32) := by
  refine ⟨?_, ?_, by decide, ?_⟩
  · rw [(backoff_sequence 6 [] 1 1).1]
    decide
  · rw [(backoff_sequence 0 [false] 5 1).2.1]
    decide
  · have h := (backoff_sequence 0 [] 1 6).2.2 (by decide)
    rw [h]
    decide

/-- Claim C5: a request submitted while no live connection is present is
resolved immediately with the disconnected outcome, independently of the
intent, and is not held back for a future connection — the rest of the
queue is processed exactly as it would be without it. -/
theorem disconnected_request_resolves_immediately (r : Request)
    (rest : List (InnerMessage × Option Bool)) :
    handle_requests ((⟨r⟩, none) :: rest)
      = Except.error BelaboxError.disconnected :: handle_requests rest := rfl

/-- Claim C6: calling restart while the restart-pending flag is set fails
fast with `AlreadyRestarting`, issues no stop and no reboot request, and
leaves the shared state unchanged. -/
theorem restart_while_pending_fails_fast (st : BelaState)
    (sr rr : Except BelaboxError Unit) (h : st.restart = true) :
    restartCmd st sr rr = (st, [], .error (.belabox .alreadyRestarting)) := by
  simp [restartCmd, h]

/-- Claim C6 witness: the sample state with the flag set. -/
theorem restart_while_pending_fails_fast_witness :
    ({ sampleState with restart := true } : BelaState).restart = true ∧
    restartCmd { sampleState with restart := true } (.ok ()) (.ok ())
      = ({ sampleState with restart := true }, [],
         .error (.belabox .alreadyRestarting)) :=
  ⟨rfl, restart_while_pending_fails_fast { sampleState with restart := true }
    (.ok ()) (.ok ()) rfl⟩

/-- Claim C7: a bitrate argument parsing to a value in 500..=12000 sends one
`Bitrate` intent carrying `increment_by_step value 250` (round to the
nearest 250) and updates the cached config's `max_br` to that value; a
parsed value outside the range answers the invalid-value response, sends no
intent and mutates no state. -/
theorem bitrate_normalization (st : BelaState) (c : Config) (s : String)
    (v : Nat) (sendResult : Except BelaboxError Unit)
    (hp : parse_u32 s = some v) :
    (500 ≤ v → v ≤ 12000 → st.config = some c →
       bitrateCmd st (some s) (.ok ())
         = ({ st with config := some { c with max_br := increment_by_step v 250 } },
            [Request.bitrate ⟨increment_by_step v 250⟩],
            .ok ("Changed max bitrate to " ++ toString (increment_by_step v 250)
                  ++ " kbps"))) ∧
    (v < 500 ∨ 12000 < v →
       bitrateCmd st (some s) sendResult
         = (st, [],
            .ok ("Invalid value: " ++ toString v
                  ++ ", use a value between 500 - 12000"))) := by
  constructor
  · intro h5 h12 hcfg
    simp only [bitrateCmd, hp]
    rw [if_neg (by omega)]
    simp [hcfg]
  · intro hout
    simp only [bitrateCmd, hp]
    rw [if_pos hout]

/-- Claim C7 witness: 537 parses, normalizes to 500 (round(537/250)·250),
is sent and cached; 13000 parses but is rejected with the invalid-value
response and no mutation. -/
theorem bitrate_normalization_witness :
    (parse_u32 "537" = some 537 ∧ increment_by_step 537 250 = 500 ∧
     500 ≤ 537 ∧ 537 ≤ 12000 ∧ sampleState.config = some sampleConfig ∧
     bitrateCmd sampleState (some "537") (.ok ())
       = ({ sampleState with
              config := some { sampleConfig with max_br := increment_by_step 537 250 } },
          [Request.bitrate ⟨increment_by_step 537 250⟩],
          .ok ("Changed max bitrate to " ++ toString (increment_by_step 537 250)
                ++ " kbps"))) ∧
    (parse_u32 "13000" = some 13000 ∧ (13000 < 500 ∨ 12000 < 13000) ∧
     bitrateCmd sampleState (some "13000") (.ok ())
       = (sampleState, [],
          .ok ("Invalid value: " ++ toString 13000
                ++ ", use a value between 500 - 12000"))) :=
  ⟨⟨by decide, by decide, by decide, by decide, rfl,
    (bitrate_normalization sampleState sampleConfig "537" 537 (.ok ())
      (by decide)).1 (by decide) (by decide) rfl⟩,
   ⟨by decide, by decide,
    (bitrate_normalization sampleState sampleConfig "13000" 13000 (.ok ())
      (by decide)).2 (by decide)⟩⟩

/-- Claim C8, counterexample: the snapshot's `Request::Stop` carries a `u8`
payload — the no-argument stop `Stop(0)` serializes to `{"stop":0}` (the
crate's own unit test asserts exactly this), not to `{"stop":null}` as
claimed. -/
theorem stop_serialization_cex :
    Request.toJson (Request.stop 0) = Json.obj [("stop", Json.num 0)] ∧
    Request.toJson (Request.stop 0) ≠ Json.obj [("stop", Json.null)] := by
  refine ⟨rfl, ?_⟩
  intro h
  simp only [Request.toJson] at h
  injection h with hf
  injection hf with hhead _
  injection hhead with _ hv
  exact Json.noConfusion hv

/-- Claim C8, amended: every outbound frame serializes to a JSON object with
exactly one key naming the intent; keepalive serializes with value `null`,
while the no-argument stop serializes with value `0` (per `Stop(u8)` and the
crate's unit test), not `null`. -/
theorem outbound_frame_single_key :
    (∀ r : Request, ∃ v : Json, Request.toJson r = Json.obj [(Request.key r, v)]) ∧
    (∀ p : Option Unit,
       Request.toJson (Request.keepalive p) = Json.obj [("keepalive", Json.null)]) ∧
    Request.toJson (Request.stop 0) = Json.obj [("stop", Json.num 0)] := by
  refine ⟨?_, fun p => rfl, rfl⟩
  intro r
  cases r <;> exact ⟨_, rfl⟩

/-- Claim C9: the fuzzy lookups select the candidate with maximum
Sørensen–Dice score, ties resolving to the candidate first in iteration
order (everything strictly before the winner scores strictly less, nothing
after it scores more); when every candidate scores zero the lookup answers
not-found; a query equal to a candidate's normalized name is found with
score 1.  The same holds for the audio-source lookup. -/
theorem fuzzy_lookup_selection (q : String) (cands : List (String × String))
    (asrcs : List String) (p c : String × String) (s : String) :
    (pipelineFind q cands = some p →
       ∃ l1 l2, cands = l1 ++ p :: l2 ∧
         (∀ d ∈ l1, pscore q d < pscore q p) ∧
         (∀ d ∈ l2, pscore q d ≤ pscore q p)) ∧
    ((∀ d ∈ cands, pscore q d = 0) → pipelineFind q cands = none) ∧
    (c ∈ cands → sorensen_dice q (normalizePipelineName c.2) = 1 →
       ∃ r, pipelineFind q cands = some r ∧ pscore q r = 1) ∧
    ((∀ t ∈ asrcs, ascore q t = 0) → audioSrcFind q asrcs = none) ∧
    (s ∈ asrcs → sorensen_dice q (lowerStr s) = 1 →
       ∃ r, audioSrcFind q asrcs = some r ∧ ascore q r = 1) := by
  refine ⟨?_, ?_, ?_, ?_, ?_⟩
  · intro h
    exact fuzzyFind_first_max (pscore q) cands p h
  · intro h
    exact fuzzyFind_none_of_zero (pscore q) cands h
  · intro hc h1
    exact fuzzyFind_of_score_one (pscore q) cands c hc h1
      (fun d _ => sorensen_dice_le_one q (normalizePipelineName d.2))
  · intro h
    exact fuzzyFind_none_of_zero (ascore q) asrcs h
  · intro hs h1
    exact fuzzyFind_of_score_one (ascore q) asrcs s hs h1
      (fun d _ => sorensen_dice_le_one q (lowerStr d))

/-- Claim C9 witness: the exact-name query "cam link" finds the pipeline
whose normalized name is "cam link" with score 1; a query sharing no bigram
with any audio source answers not-found. -/
theorem fuzzy_lookup_selection_witness :
    ((("h1", "Cam_Link") : String × String) ∈
        ([("h1", "Cam_Link"), ("h2", "USB")] : List (String × String)) ∧
     sorensen_dice "cam link" (normalizePipelineName "Cam_Link") = 1 ∧
     ∃ r, pipelineFind "cam link" [("h1", "Cam_Link"), ("h2", "USB")] = some r ∧
       pscore "cam link" r = 1) ∧
    ((∀ t ∈ (["uv", "wx"] : List String), ascore "cam link" t = 0) ∧
     audioSrcFind "cam link" ["uv", "wx"] = none) := by
  have hnorm : sorensen_dice "cam link" (normalizePipelineName "Cam_Link") = 1 := by
    have he : normalizePipelineName "Cam_Link" = "cam link" := by decide
    rw [he]
    exact sorensen_dice_self "cam link"
  have hz : ∀ t ∈ (["uv", "wx"] : List String), ascore "cam link" t = 0 := by
    intro t ht
    rcases List.mem_cons.mp ht with rfl | ht
    · exact sorensen_dice_eq_zero_of "cam link" (lowerStr "uv")
        (by decide) (by decide) (by decide)
    · rcases List.mem_cons.mp ht with rfl | ht
      · exact sorensen_dice_eq_zero_of "cam link" (lowerStr "wx")
          (by decide) (by decide) (by decide)
      · simp at ht
  refine ⟨⟨by decide, hnorm, ?_⟩, hz, ?_⟩
  · exact (fuzzy_lookup_selection "cam link" [("h1", "Cam_Link"), ("h2", "USB")]
      [] ("h1", "Cam_Link") ("h1", "Cam_Link") "x").2.2.1 (by decide) hnorm
  · exact (fuzzy_lookup_selection "cam link" [] ["uv", "wx"]
      ("h1", "Cam_Link") ("h1", "Cam_Link") "x").2.2.2.1 hz

/-- Claim C10: the permission check is monotone along the tier hierarchy
broadcaster ≥ moderator ≥ vip ≥ public — a sender allowed at some tier is
allowed at every less-restrictive tier — and a sender named in the
configured admins list is granted broadcaster-level access regardless of
badge flags. -/
theorem permission_monotone (admins : List String) (hm : HandleMessage) :
    (∀ p q : Permission, Permission.rank q ≤ Permission.rank p →
        is_allowed_to_execute admins p hm = true →
        is_allowed_to_execute admins q hm = true) ∧
    (hm.sender_name ∈ admins →
        is_allowed_to_execute admins Permission.broadcaster hm = true) := by
  constructor
  · intro p q hrank hall
    cases p <;> cases q <;>
      simp only [Permission.rank] at hrank <;>
      simp only [is_allowed_to_execute] at hall ⊢ <;>
      first
        | rfl
        | exact hall
        | omega
        | (simp only [Bool.or_eq_true] at hall ⊢; tauto)
  · intro hmem
    simp only [is_allowed_to_execute, Bool.or_eq_true]
    exact Or.inr (List.elem_iff.mpr hmem)

/-- Claim C10 witness: a badge-less sender named in the admins list passes
the broadcaster check, and allowance at moderator implies allowance at the
less-restrictive vip tier. -/
theorem permission_monotone_witness :
    ("alice" ∈ (["alice"] : List String) ∧
     is_allowed_to_execute ["alice"] Permission.broadcaster adminMsg = true) ∧
    (Permission.rank Permission.vip ≤ Permission.rank Permission.moderator ∧
     is_allowed_to_execute ["alice"] Permission.vip adminMsg = true) :=
  ⟨⟨by decide, (permission_monotone ["alice"] adminMsg).2 (by decide)⟩,
   ⟨by decide, (permission_monotone ["alice"] adminMsg).1
      Permission.moderator Permission.vip (by decide) (by decide)⟩⟩

end Belabot
